import Mathlib

/-!
# Verification of the Agentic CI/CD Reviewer core

Shallow embedding of the two core components of the repository:

* `GitHubClient` (src/github_api/client.py): webhook signature verification
  and the bounded retry/backoff engine `_request_with_retry`.
* the review workflow (src/agent/graph.py, src/agent/nodes.py,
  src/agent/state.py): the three-node state machine `reviewer` →
  (conditional) `patcher` → `committer`.

Python floats used for backoff arithmetic are modelled as rationals (the
values involved — defaults 1.0 and 8.0, doublings and a cap — are exact in
both). Python byte strings are `List Nat`, Python `str` used for signature
comparison is `List Char`. External boundaries (the text-generation
capability, the HTTP transport) are modelled as oracles supplying the
responses the code consumes, exactly at the call sites in the source.
-/

namespace CICD

/-! ## Retry client: src/github_api/client.py -/

/-- The settings consumed by the retry engine (src/config.py): maximum retry
count, base backoff seconds and backoff cap, the latter two Python floats
modelled as rationals. -/
structure Settings where
  maxRetries : Nat
  retryBackoffSeconds : ℚ
  retryMaxBackoffSeconds : ℚ
  deriving Repr, DecidableEq

/-- An HTTP response as the retry engine inspects it: a status code and the
optional value of the `Retry-After` header. -/
structure HttpResponse where
  status : Nat
  retryAfter : Option String
  deriving Repr, DecidableEq

/-- What one attempt of the transport yields: either a response, or a
transport-level timeout / network error (identified by its message). -/
inductive AttemptResult where
  | resp (r : HttpResponse)
  | netErr (e : String)
  deriving Repr, DecidableEq

/-- The outcome of one logical `_request_with_retry` call.
`ok` is the returned response; `httpError` is the `HTTPStatusError` raised by
`response.raise_for_status()`; `netRaise` is the re-raised network error.
`fallbackRaise` and `unexpected` are the two raises after the loop (client.py
lines 106–108): `raise last_error` and the `RuntimeError`. -/
inductive ReqOutcome where
  | ok (r : HttpResponse)
  | httpError (status : Nat)
  | netRaise (e : String)
  | fallbackRaise (e : String)
  | unexpected
  deriving Repr, DecidableEq

/-- The observable result of one logical call: its outcome, how many
transport attempts were performed, and the backoff delays slept (in order). -/
structure RunResult where
  outcome : ReqOutcome
  attempts : Nat
  delays : List ℚ
  deriving Repr, DecidableEq

/-- client.py line 41–42: `status_code == 429 or 500 <= status_code <= 599`. -/
def is_retryable_status (status : Nat) : Bool :=
  status == 429 || (500 ≤ status && status ≤ 599)

/-- httpx `Response.raise_for_status()` (httpx ≥ 0.20, the only versions
this project's dependency stack can resolve) raises for every non-2xx
status: informational and redirect responses as well as 4xx/5xx errors. -/
def raise_for_status_raises (status : Nat) : Bool :=
  !(200 ≤ status && status ≤ 299)

/-- client.py lines 72–75 (also 90–93): `min(base * 2**attempt, cap)`. -/
def computeBackoff (s : Settings) (attempt : Nat) : ℚ :=
  min (s.retryBackoffSeconds * 2 ^ attempt) s.retryMaxBackoffSeconds

/-- client.py lines 68–75: the delay for one retryable response — the
`Retry-After` header value when present, non-empty and all digits, otherwise
the exponential backoff. -/
def attemptDelay (s : Settings) (attempt : Nat) (retryAfter : Option String) : ℚ :=
  match retryAfter with
  | some ra =>
      if ra ≠ "" ∧ ra.data.all Char.isDigit then ((ra.toNat?.getD 0 : Nat) : ℚ)
      else computeBackoff s attempt
  | none => computeBackoff s attempt

/-- The body of the `for attempt in range(max_retries + 1)` loop of
`_request_with_retry` (client.py lines 54–108), one constructor-level
transcription per branch. `attempt` is the loop index, `fuel` the number of
iterations the `range` still has, `lastError` the `last_error` variable and
`delays` the sleeps performed so far. The `fuel = 0` case is the fall-through
after the loop (lines 106–108). -/
def retryGo (s : Settings) (o : Nat → AttemptResult) :
    Nat → Nat → Option String → List ℚ → RunResult
  | attempt, 0, lastError, delays =>
      match lastError with
      | some e => ⟨.fallbackRaise e, attempt, delays⟩
      | none => ⟨.unexpected, attempt, delays⟩
  | attempt, fuel + 1, lastError, delays =>
      match o attempt with
      | .resp r =>
          if is_retryable_status r.status then
            let delay := attemptDelay s attempt r.retryAfter
            if s.maxRetries ≤ attempt then
              ⟨.httpError r.status, attempt + 1, delays⟩
            else
              retryGo s o (attempt + 1) fuel lastError (delays ++ [delay])
          else
            if raise_for_status_raises r.status then
              ⟨.httpError r.status, attempt + 1, delays⟩
            else
              ⟨.ok r, attempt + 1, delays⟩
      | .netErr e =>
          let delay := computeBackoff s attempt
          if s.maxRetries ≤ attempt then
            ⟨.netRaise e, attempt + 1, delays⟩
          else
            retryGo s o (attempt + 1) fuel (some e) (delays ++ [delay])

/-- `_request_with_retry` (client.py lines 44–108): run the loop from attempt
0 with `max_retries + 1` iterations available, `last_error = None` and no
sleeps performed yet. The transport is the oracle `o`, giving the result of
each attempt by index. -/
def request_with_retry (s : Settings) (o : Nat → AttemptResult) : RunResult :=
  retryGo s o 0 (s.maxRetries + 1) none []

/-- An attempt result the loop retries on: a response with retryable status,
or any network error. -/
def isRetryableOutcome : AttemptResult → Bool
  | .resp r => is_retryable_status r.status
  | .netErr _ => true

/-! ## SHA-256 and HMAC-SHA256 (the `hashlib` / `hmac` calls of client.py)

Bytes are `Nat` values below 256; 32-bit words are `Nat` values reduced
modulo `2^32` explicitly at every arithmetic step. -/

/-- Right rotation of a 32-bit word (input assumed below `2^32`). -/
def rotr32 (n x : Nat) : Nat :=
  ((x >>> n) ||| (x <<< (32 - n))) % 4294967296

/-- Big-endian byte decomposition: the `k` bytes of `n`, most significant
first. -/
def beBytes (k n : Nat) : List Nat :=
  (List.range k).map (fun i => (n >>> (8 * (k - 1 - i))) % 256)

/-- Big-endian byte composition. -/
def bytesToWord (bs : List Nat) : Nat :=
  bs.foldl (fun acc b => acc * 256 + b) 0

/-- SHA-256 round constants. -/
def shaK : List Nat :=
  [1116352408, 1899447441, 3049323471, 3921009573,
   961987163, 1508970993, 2453635748, 2870763221,
   3624381080, 310598401, 607225278, 1426881987,
   1925078388, 2162078206, 2614888103, 3248222580,
   3835390401, 4022224774, 264347078, 604807628,
   770255983, 1249150122, 1555081692, 1996064986,
   2554220882, 2821834349, 2952996808, 3210313671,
   3336571891, 3584528711, 113926993, 338241895,
   666307205, 773529912, 1294757372, 1396182291,
   1695183700, 1986661051, 2177026350, 2456956037,
   2730485921, 2820302411, 3259730800, 3345764771,
   3516065817, 3600352804, 4094571909, 275423344,
   430227734, 506948616, 659060556, 883997877,
   958139571, 1322822218, 1537002063, 1747873779,
   1955562222, 2024104815, 2227730452, 2361852424,
   2428436474, 2756734187, 3204031479, 3329325298]

/-- The eight working variables of the SHA-256 compression function. -/
structure Sha256State where
  a : Nat
  b : Nat
  c : Nat
  d : Nat
  e : Nat
  f : Nat
  g : Nat
  h : Nat
  deriving Repr, DecidableEq

/-- SHA-256 initial hash value. -/
def shaInit : Sha256State :=
  ⟨1779033703, 3144134277, 1013904242, 2773480762,
   1359893119, 2600822924, 528734635, 1541459225⟩

/-- σ₀ message-schedule function. -/
def smallSigma0 (x : Nat) : Nat := (rotr32 7 x) ^^^ (rotr32 18 x) ^^^ (x >>> 3)

/-- σ₁ message-schedule function. -/
def smallSigma1 (x : Nat) : Nat := (rotr32 17 x) ^^^ (rotr32 19 x) ^^^ (x >>> 10)

/-- Σ₀ compression function. -/
def bigSigma0 (x : Nat) : Nat := (rotr32 2 x) ^^^ (rotr32 13 x) ^^^ (rotr32 22 x)

/-- Σ₁ compression function. -/
def bigSigma1 (x : Nat) : Nat := (rotr32 6 x) ^^^ (rotr32 11 x) ^^^ (rotr32 25 x)

/-- Ch(x, y, z), with 32-bit complement written as xor with the all-ones
word. -/
def chFn (x y z : Nat) : Nat := (x &&& y) ^^^ ((x ^^^ 0xffffffff) &&& z)

/-- Maj(x, y, z). -/
def majFn (x y z : Nat) : Nat := (x &&& y) ^^^ (x &&& z) ^^^ (y &&& z)

/-- SHA-256 padding: append `0x80`, zero bytes up to 56 mod 64, then the
bit length as 8 big-endian bytes. -/
def shaPad (msg : List Nat) : List Nat :=
  let len := msg.length
  msg ++ [0x80] ++ List.replicate ((64 - (len + 9) % 64) % 64) 0 ++ beBytes 8 (8 * len)

/-- Split a (padded) message into its 64-byte blocks. -/
def toBlocks (l : List Nat) : List (List Nat) :=
  (List.range (l.length / 64)).map (fun i => ((l.drop (64 * i)).take 64))

/-- The sixteen 32-bit words of one 64-byte block, big-endian. -/
def toWords (block : List Nat) : List Nat :=
  (List.range 16).map (fun i => bytesToWord ((block.drop (4 * i)).take 4))

/-- One message-schedule extension step: append
`σ₁(w[t−2]) + w[t−7] + σ₀(w[t−15]) + w[t−16] mod 2^32`. -/
def scheduleStep (w : List Nat) : List Nat :=
  w ++ [(smallSigma1 (w.getD (w.length - 2) 0) + w.getD (w.length - 7) 0 +
         smallSigma0 (w.getD (w.length - 15) 0) + w.getD (w.length - 16) 0) % 4294967296]

/-- Extend 16 schedule words to 64. -/
def schedule (w16 : List Nat) : List Nat :=
  (List.range 48).foldl (fun w _ => scheduleStep w) w16

/-- One SHA-256 compression round, consuming one `(Kₜ, Wₜ)` pair. -/
def compressRound (st : Sha256State) (kw : Nat × Nat) : Sha256State :=
  let t1 := (st.h + bigSigma1 st.e + chFn st.e st.f st.g + kw.1 + kw.2) % 4294967296
  let t2 := (bigSigma0 st.a + majFn st.a st.b st.c) % 4294967296
  ⟨(t1 + t2) % 4294967296, st.a, st.b, st.c, (st.d + t1) % 4294967296, st.e, st.f, st.g⟩

/-- Process one 64-byte block: 64 compression rounds, then add the result
into the chaining value, all modulo `2^32`. -/
def processBlock (hv : Sha256State) (block : List Nat) : Sha256State :=
  let st := (shaK.zip (schedule (toWords block))).foldl compressRound hv
  ⟨(hv.a + st.a) % 4294967296, (hv.b + st.b) % 4294967296,
   (hv.c + st.c) % 4294967296, (hv.d + st.d) % 4294967296,
   (hv.e + st.e) % 4294967296, (hv.f + st.f) % 4294967296,
   (hv.g + st.g) % 4294967296, (hv.h + st.h) % 4294967296⟩

/-- SHA-256 of a byte list, as the 32 digest bytes. -/
def sha256 (msg : List Nat) : List Nat :=
  let fin := (toBlocks (shaPad msg)).foldl processBlock shaInit
  beBytes 4 fin.a ++ beBytes 4 fin.b ++ beBytes 4 fin.c ++ beBytes 4 fin.d ++
  beBytes 4 fin.e ++ beBytes 4 fin.f ++ beBytes 4 fin.g ++ beBytes 4 fin.h

/-- HMAC-SHA256 with block size 64: digest bytes of
`H((K₀ ⊕ opad) ‖ H((K₀ ⊕ ipad) ‖ msg))`. -/
def hmacSha256 (key msg : List Nat) : List Nat :=
  let k0 := if 64 < key.length then sha256 key else key
  let k := k0 ++ List.replicate (64 - k0.length) 0
  sha256 ((k.map (fun b => b ^^^ 0x5c)) ++
    sha256 ((k.map (fun b => b ^^^ 0x36)) ++ msg))

/-- Lower-case hex digit. -/
def hexChar (n : Nat) : Char :=
  if n < 10 then Char.ofNat (48 + n) else Char.ofNat (87 + n)

/-- Lower-case hex encoding of a byte list (`.hexdigest()` in client.py). -/
def hexDigest (bs : List Nat) : List Char :=
  bs.foldr (fun b acc => hexChar (b / 16) :: hexChar (b % 16) :: acc) []

/-! ## Webhook signature verification: client.py lines 29–39

Python `str` values are `List Char`; the webhook secret arrives already
UTF-8 encoded (`.encode("utf-8")` in the source) as a byte list. -/

/-- The expected signature prefix, `"sha256="`. -/
def sha256HeaderPrefix : List Char := "sha256=".data

/-- client.py lines 33–38: `"sha256=" + hexdigest of HMAC-SHA256`. -/
def expected_signature (secret payload : List Nat) : List Char :=
  sha256HeaderPrefix ++ hexDigest (hmacSha256 secret payload)

/-- `verify_webhook_signature` (client.py lines 29–39): fail closed on an
empty header or one not starting with `"sha256="`, otherwise compare against
the expected signature (`hmac.compare_digest` is constant-time equality). -/
def verify_webhook_signature (secret payload : List Nat) (signature : List Char) : Bool :=
  if signature.isEmpty || !(sha256HeaderPrefix.isPrefixOf signature) then false
  else expected_signature secret payload == signature

/-! ## Workflow data model: src/agent/state.py -/

/-- `severity` literal type of `ReviewIssue` (state.py lines 10–12). -/
inductive Severity where
  | low
  | medium
  | high
  | critical
  deriving Repr, DecidableEq

/-- `ReviewIssue` (state.py lines 6–12). -/
structure ReviewIssue where
  file_path : String
  line_number : Nat
  issue_description : String
  severity : Severity
  deriving Repr, DecidableEq

/-- `ReviewResult` (state.py lines 15–18). -/
structure ReviewResult where
  has_bugs : Bool
  issues : List ReviewIssue
  summary : String
  deriving Repr, DecidableEq

/-- `GraphState` (state.py lines 21–28), without the opaque
`github_client` handle (the posting boundary is an oracle of the run). -/
structure GraphState where
  repo_name : String
  pr_number : Nat
  pr_diff : String
  review_result : Option ReviewResult
  patch_code : Option String
  final_comment : Option String
  deriving Repr, DecidableEq

/-- JSON text of a severity literal. -/
def severity_str : Severity → String
  | .low => "low"
  | .medium => "medium"
  | .high => "high"
  | .critical => "critical"

/-- JSON text of one issue, for `model_dump_json`. -/
def dump_issue (i : ReviewIssue) : String :=
  "\x7b\"file_path\": \"" ++ i.file_path ++ "\", \"line_number\": " ++
    toString i.line_number ++ ", \"issue_description\": \"" ++ i.issue_description ++
    "\", \"severity\": \"" ++ severity_str i.severity ++ "\"\x7d"

/-- Models pydantic's `ReviewResult.model_dump_json` used when the nodes
format prompts (nodes.py lines 158 and 202): a JSON rendering of the three
fields. The exact whitespace of pydantic's output is immaterial to every
property below; only that some serialization of the structured result is
passed along matters. -/
def model_dump_json (r : ReviewResult) : String :=
  "\x7b\"has_bugs\": " ++ (if r.has_bugs then "true" else "false") ++
    ", \"issues\": [" ++ String.intercalate ", " (r.issues.map dump_issue) ++
    "], \"summary\": \"" ++ r.summary ++ "\"\x7d"

/-! ## Workflow nodes and graph: src/agent/nodes.py, src/agent/graph.py

The text-generation capability is an oracle with one operation per call
site; each operation may fail (`Except.error`), which the workflow does not
retry. The comment-posting boundary is an oracle telling whether
`post_pr_comment` (after its own internal retries) succeeds or raises.
A node returns the list of external calls it performed, in order, together
with either the updated `GraphState` (LangGraph merges the node's partial
update, which only ever sets one field) or the error that aborted the run. -/

/-- The text-generation capability, one operation per call site:
`review` (nodes.py line 117, structured output for the diff), `patchGen`
(line 155, diff and serialized review), `commitGen` (line 200, serialized
review and patch argument). -/
structure LLMOracle where
  review : String → Except String ReviewResult
  patchGen : String → String → Except String String
  commitGen : String → String → Except String String

/-- Whether `post_pr_comment repo pr body` succeeds (true) or raises after
its retries are exhausted (false). -/
def PostOracle : Type := String → Nat → String → Bool

/-- One observable external call of a workflow run. -/
inductive Event where
  | llmReview (pr_diff : String)
  | llmPatch (pr_diff : String) (review_json : String)
  | llmCommit (review_json : String) (patch_arg : String)
  | post (repo : String) (pr : Nat) (body : String) (ok : Bool)
  deriving Repr, DecidableEq

/-- `reviewer_agent` (nodes.py lines 95–124): one structured-generation call
on the diff; on success the returned update sets `review_result`. -/
def reviewer_agent (o : LLMOracle) (st : GraphState) :
    List Event × Except String GraphState :=
  ([.llmReview st.pr_diff],
   match o.review st.pr_diff with
   | .error e => .error e
   | .ok r => .ok { st with review_result := some r })

/-- `patcher_agent` (nodes.py lines 127–163): skip (setting `patch_code`
to `None`) unless a review result with `has_bugs` is present; otherwise one
free-text generation call on the diff and the serialized review. -/
def patcher_agent (o : LLMOracle) (st : GraphState) :
    List Event × Except String GraphState :=
  match st.review_result with
  | none => ([], .ok { st with patch_code := none })
  | some r =>
    if r.has_bugs then
      let rjson := model_dump_json r
      ([.llmPatch st.pr_diff rjson],
       match o.patchGen st.pr_diff rjson with
       | .error e => .error e
       | .ok p => .ok { st with patch_code := some p })
    else ([], .ok { st with patch_code := none })

/-- nodes.py line 204: `patch_code or "N/A"` — Python `or` takes the
placeholder both when `patch_code` is `None` and when it is the empty
string. -/
def patch_code_or_placeholder : Option String → String
  | some p => if p = "" then "N/A" else p
  | none => "N/A"

/-- The approved comment of the cheap path (nodes.py lines 173–178),
with the source file's literal characters. -/
def approved_comment (summary : String) : String :=
  "## PR Review Result\n\nLGTM âœ…\n\n" ++ summary ++
    "\n\nNo blocking issues found."

/-- nodes.py lines 212–217: deliver the final comment through
`post_pr_comment`; only a successful delivery returns the update setting
`final_comment`, a raise aborts the node. -/
def deliver_comment (post : PostOracle) (st : GraphState) (evs : List Event)
    (final : String) : List Event × Except String GraphState :=
  let ok := post st.repo_name st.pr_number final
  (evs ++ [.post st.repo_name st.pr_number final ok],
   if ok then .ok { st with final_comment := some final }
   else .error "post_pr_comment failed")

/-- `committer_agent` (nodes.py lines 166–219): the cheap deterministic
comment when a review result is present with `has_bugs == False`, otherwise
one generation call on the serialized review (`"{}"` when absent) and the
patch argument; then delivery. -/
def committer_agent (o : LLMOracle) (post : PostOracle) (st : GraphState) :
    List Event × Except String GraphState :=
  let cheap : Option String :=
    match st.review_result with
    | some r => if r.has_bugs then none else some (approved_comment r.summary)
    | none => none
  match cheap with
  | some final => deliver_comment post st [] final
  | none =>
    let rjson := match st.review_result with
      | some r => model_dump_json r
      | none => "\x7b\x7d"
    let parg := patch_code_or_placeholder st.patch_code
    match o.commitGen rjson parg with
    | .error e => ([.llmCommit rjson parg], .error e)
    | .ok final => deliver_comment post st [.llmCommit rjson parg] final

/-- `_route_after_review` (graph.py lines 12–16): to `"patcher"` exactly
when a review result is present and flags bugs, else to `"committer"`. -/
def route_after_review (st : GraphState) : String :=
  match st.review_result with
  | some r => if r.has_bugs then "patcher" else "committer"
  | none => "committer"

/-- The compiled graph of `build_graph` (graph.py lines 19–36) run on an
initial state: START → `reviewer`; the one conditional edge routes on
`route_after_review`; `patcher` → `committer`; `committer` → END. An
error return from a node aborts the run at that node. -/
def run_graph (o : LLMOracle) (post : PostOracle) (init : GraphState) :
    List Event × Except String GraphState :=
  let step1 := reviewer_agent o init
  match step1.2 with
  | .error e => (step1.1, .error e)
  | .ok st1 =>
    if route_after_review st1 = "patcher" then
      let step2 := patcher_agent o st1
      match step2.2 with
      | .error e => (step1.1 ++ step2.1, .error e)
      | .ok st2 =>
        let step3 := committer_agent o post st2
        (step1.1 ++ step2.1 ++ step3.1, step3.2)
    else
      let step3 := committer_agent o post st1
      (step1.1 ++ step3.1, step3.2)

/-- The initial state built by `run_pr_review` (graph.py lines 49–56). -/
def initial_state (repo_name : String) (pr_number : Nat) (pr_diff : String) :
    GraphState :=
  ⟨repo_name, pr_number, pr_diff, none, none, none⟩

/-- `run_pr_review` (graph.py lines 42–62): build the initial state and
invoke the compiled graph. -/
def run_pr_review (o : LLMOracle) (post : PostOracle) (repo_name : String)
    (pr_number : Nat) (pr_diff : String) : List Event × Except String GraphState :=
  run_graph o post (initial_state repo_name pr_number pr_diff)

/-- Whether an event is a call of the text-generation capability. -/
def isLLMEvent : Event → Bool
  | .llmReview _ => true
  | .llmPatch _ _ => true
  | .llmCommit _ _ => true
  | .post _ _ _ _ => false

/-- Whether an event is an invocation of the patch generation call. -/
def isPatchEvent : Event → Bool
  | .llmPatch _ _ => true
  | _ => false

/-- Whether an event is a `post_pr_comment` call. -/
def isPostEvent : Event → Bool
  | .post _ _ _ _ => true
  | _ => false

/-- Text-generation calls in a trace. -/
def countLLM (evs : List Event) : Nat := evs.countP isLLMEvent

/-- Patch-generation calls in a trace. -/
def countPatchCalls (evs : List Event) : Nat := evs.countP isPatchEvent

/-- `post_pr_comment` calls in a trace. -/
def countPosts (evs : List Event) : Nat := evs.countP isPostEvent

/-! ## Lemmas about the retry engine -/

/-- The delay one retryable attempt `j` sleeps: `Retry-After`-aware for a
response, plain exponential backoff for a network error. -/
def stepDelay (s : Settings) (o : Nat → AttemptResult) (j : Nat) : ℚ :=
  match o j with
  | .resp r => attemptDelay s j r.retryAfter
  | .netErr _ => computeBackoff s j

/-- The delays slept by `k` consecutive retryable attempts starting at
attempt `j`. -/
def stepDelays (s : Settings) (o : Nat → AttemptResult) : Nat → Nat → List ℚ
  | _, 0 => []
  | j, k + 1 => stepDelay s o j :: stepDelays s o (j + 1) k

/-- A structured review reporting no bugs, summary `"No issues"`. -/
def demoReviewOk : ReviewResult := ⟨false, [], "No issues"⟩

/-- A structured review flagging bugs with an empty issues list. -/
def demoReviewBad : ReviewResult := ⟨true, [], "Found bugs"⟩

/-- A text-generation oracle whose review finds no bugs, used to exercise
the approved path on concrete runs. -/
def demoOracleOk : LLMOracle :=
  ⟨fun _ => .ok demoReviewOk, fun _ _ => .ok "patch", fun _ _ => .ok "final"⟩

/-- A text-generation oracle whose review flags bugs with an empty issues
list, used to exercise the patch path on concrete runs. -/
def demoOracleBad : LLMOracle :=
  ⟨fun _ => .ok demoReviewBad, fun _ _ => .ok "patch", fun _ _ => .ok "final"⟩

/-- A posting boundary whose deliveries always succeed. -/
def postAlways : PostOracle := fun _ _ _ => true

/-- While the loop has fuel left and cannot outlive `max_retries` (the
`range` bound), it never reaches the fall-through after the loop: every
iteration returns, raises, or sleeps and continues into an iteration with
the same property. -/
theorem retryGo_no_fallthrough (s : Settings) (o : Nat → AttemptResult) :
    ∀ fuel attempt lastError delays, 1 ≤ fuel →
      s.maxRetries + 1 ≤ attempt + fuel →
      (∀ e, (retryGo s o attempt fuel lastError delays).outcome ≠ .fallbackRaise e) ∧
        (retryGo s o attempt fuel lastError delays).outcome ≠ .unexpected := by
  intro fuel
  induction fuel with
  | zero => intro attempt le dl h; omega
  | succ n ih =>
    intro attempt le dl _ hbound
    simp only [retryGo]
    cases ho : o attempt with
    | resp r =>
      by_cases hr : is_retryable_status r.status
      · simp only [hr, if_true]
        by_cases hm : s.maxRetries ≤ attempt
        · simp [hm]
        · simp only [hm, if_false]
          exact ih (attempt + 1) le (dl ++ [attemptDelay s attempt r.retryAfter])
            (by omega) (by omega)
      · simp only [hr, if_false]
        by_cases hraise : raise_for_status_raises r.status
        · simp [hraise]
        · simp [hraise]
    | netErr e =>
      by_cases hm : s.maxRetries ≤ attempt
      · simp [hm]
      · simp only [hm, if_false]
        exact ih (attempt + 1) (some e) (dl ++ [computeBackoff s attempt])
          (by omega) (by omega)

/-- Stepping the loop through `k` consecutive retryable attempts within the
retry budget: each sleeps its computed delay and continues. -/
theorem retryGo_retryable_steps (s : Settings) (o : Nat → AttemptResult) :
    ∀ k attempt fuel lastError delays,
      (∀ i, i < k → isRetryableOutcome (o (attempt + i)) = true) →
      attempt + k ≤ s.maxRetries →
      ∃ lastError', retryGo s o attempt (fuel + k) lastError delays =
        retryGo s o (attempt + k) fuel lastError' (delays ++ stepDelays s o attempt k) := by
  intro k
  induction k with
  | zero =>
    intro attempt fuel le dl _ _
    exact ⟨le, by simp [stepDelays]⟩
  | succ n ih =>
    intro attempt fuel le dl hretry hbound
    have h0 : isRetryableOutcome (o attempt) = true := by
      have := hretry 0 (by omega)
      simpa using this
    have hm : ¬ s.maxRetries ≤ attempt := by omega
    have hstep : ∀ i, i < n → isRetryableOutcome (o (attempt + 1 + i)) = true := by
      intro i hi
      have := hretry (i + 1) (by omega)
      have harith : attempt + (i + 1) = attempt + 1 + i := by omega
      rwa [harith] at this
    have hfuel : fuel + (n + 1) = (fuel + n) + 1 := by omega
    rw [hfuel]
    cases ho : o attempt with
    | resp r =>
      have hr : is_retryable_status r.status = true := by
        simpa [isRetryableOutcome, ho] using h0
      simp only [retryGo, ho, hr, if_true, hm, if_false]
      obtain ⟨le', hle'⟩ := ih (attempt + 1) fuel le
        (dl ++ [attemptDelay s attempt r.retryAfter]) hstep (by omega)
      refine ⟨le', ?_⟩
      rw [hle']
      have harith : attempt + 1 + n = attempt + (n + 1) := by omega
      rw [harith]
      have hdl : (dl ++ [attemptDelay s attempt r.retryAfter]) ++
          stepDelays s o (attempt + 1) n = dl ++ stepDelays s o attempt (n + 1) := by
        simp [stepDelays, stepDelay, ho]
      rw [hdl]
    | netErr e =>
      simp only [retryGo, ho, hm, if_false]
      obtain ⟨le', hle'⟩ := ih (attempt + 1) fuel (some e)
        (dl ++ [computeBackoff s attempt]) hstep (by omega)
      refine ⟨le', ?_⟩
      rw [hle']
      have harith : attempt + 1 + n = attempt + (n + 1) := by omega
      rw [harith]
      have hdl : (dl ++ [computeBackoff s attempt]) ++
          stepDelays s o (attempt + 1) n = dl ++ stepDelays s o attempt (n + 1) := by
        simp [stepDelays, stepDelay, ho]
      rw [hdl]

/-- C2: for every retry budget and response sequence, if the `k ≤ R` leading
attempts are retryable and attempt `k` returns a 2xx response, the call
returns that response after exactly `k + 1` attempts (sleeping the `k`
computed delays); if all `R + 1` attempts are retryable, the call raises
after exactly `R + 1` attempts — the last retryable HTTP status as an HTTP
error, a last network error re-raised as-is. -/
theorem request_with_retry_termination (s : Settings) (o : Nat → AttemptResult) :
    (∀ k r, (∀ i, i < k → isRetryableOutcome (o i) = true) → k ≤ s.maxRetries →
      o k = .resp r → 200 ≤ r.status → r.status ≤ 299 →
      request_with_retry s o = ⟨.ok r, k + 1, stepDelays s o 0 k⟩) ∧
    ((∀ i, i ≤ s.maxRetries → isRetryableOutcome (o i) = true) →
      request_with_retry s o =
        ⟨match o s.maxRetries with
          | .resp r => .httpError r.status
          | .netErr e => .netRaise e,
         s.maxRetries + 1, stepDelays s o 0 s.maxRetries⟩) := by
  constructor
  · intro k r hretry hk ho h2 h3
    have hfuel : s.maxRetries + 1 = (s.maxRetries - k) + 1 + k := by omega
    rw [request_with_retry, hfuel]
    obtain ⟨le', heq⟩ := retryGo_retryable_steps s o k 0 (s.maxRetries - k + 1) none []
      (by simpa using hretry) (by omega)
    rw [heq]
    have hnr : is_retryable_status r.status = false := by
      simp only [is_retryable_status, Bool.or_eq_false_iff, beq_eq_false_iff_ne,
        Bool.and_eq_false_iff, decide_eq_false_iff_not]
      omega
    have hraise : raise_for_status_raises r.status = false := by
      simp [raise_for_status_raises]
      omega
    simp [retryGo, ho, hnr, hraise]
  · intro hall
    have hfuel : s.maxRetries + 1 = 1 + s.maxRetries := by omega
    rw [request_with_retry, hfuel]
    obtain ⟨le', heq⟩ := retryGo_retryable_steps s o s.maxRetries 0 1 none []
      (by simpa using fun i hi => hall i (by omega)) (by omega)
    rw [heq]
    have hm : s.maxRetries ≤ 0 + s.maxRetries := by omega
    cases ho : o s.maxRetries with
    | resp r =>
      have hr : is_retryable_status r.status = true := by
        have := hall s.maxRetries (le_refl _)
        simpa [isRetryableOutcome, ho] using this
      simp only [retryGo, Nat.zero_add, List.nil_append]
      rw [ho]
      simp [hr, Nat.add_comm]
    | netErr e =>
      simp only [retryGo, Nat.zero_add, List.nil_append]
      rw [ho]
      simp [Nat.add_comm]

/-- C2 witness: max_retries 3, three 503s then a 200 → success on the 4th
attempt; max_retries 1, persistent timeouts → the timeout re-raised after
2 attempts. -/
theorem request_with_retry_termination_witness :
    request_with_retry ⟨3, 1, 8⟩
        (fun i => if i < 3 then .resp ⟨503, none⟩ else .resp ⟨200, none⟩) =
      ⟨.ok ⟨200, none⟩, 4,
       stepDelays ⟨3, 1, 8⟩
         (fun i => if i < 3 then .resp ⟨503, none⟩ else .resp ⟨200, none⟩) 0 3⟩ ∧
    request_with_retry ⟨1, 1, 8⟩ (fun _ => .netErr "timeout") =
      ⟨.netRaise "timeout", 2, stepDelays ⟨1, 1, 8⟩ (fun _ => .netErr "timeout") 0 1⟩ :=
  ⟨(request_with_retry_termination ⟨3, 1, 8⟩ _).1 3 ⟨200, none⟩ (by decide) (by decide)
      (by decide) (by decide) (by decide),
   (request_with_retry_termination ⟨1, 1, 8⟩ _).2 (fun i _ => rfl)⟩

/-- C5: the delay the engine computes for attempt `i` is
`min(base · 2^i, cap)` absent a `Retry-After` override, is non-decreasing in
`i` for a non-negative base, and is overridden by an all-digits
`Retry-After` header value. -/
theorem backoff_policy (s : Settings) :
    (∀ i, attemptDelay s i none =
        min (s.retryBackoffSeconds * 2 ^ i) s.retryMaxBackoffSeconds) ∧
    (0 ≤ s.retryBackoffSeconds → ∀ i j, i ≤ j →
      attemptDelay s i none ≤ attemptDelay s j none) ∧
    (∀ i ra, ra ≠ "" → ra.data.all Char.isDigit = true →
      attemptDelay s i (some ra) = ((ra.toNat?.getD 0 : Nat) : ℚ)) := by
  refine ⟨fun i => rfl, fun hb i j hij => ?_, fun i ra h1 h2 => ?_⟩
  · simp only [attemptDelay, computeBackoff]
    refine min_le_min ?_ le_rfl
    refine mul_le_mul_of_nonneg_left ?_ hb
    exact pow_le_pow_right₀ one_le_two hij
  · simp [attemptDelay, h1, h2]

/-- C5 witness: with base 1 and cap 8, the delay for attempt 1 is at most
that for attempt 2, and `Retry-After: 7` overrides the computation. -/
theorem backoff_policy_witness :
    attemptDelay ⟨3, 1, 8⟩ 1 none ≤ attemptDelay ⟨3, 1, 8⟩ 2 none ∧
    attemptDelay ⟨3, 1, 8⟩ 0 (some "7") = (("7".toNat?.getD 0 : Nat) : ℚ) :=
  ⟨(backoff_policy ⟨3, 1, 8⟩).2.1 (by norm_num) 1 2 (by norm_num),
   (backoff_policy ⟨3, 1, 8⟩).2.2 0 "7" (by decide) (by decide)⟩

/-- C6: on any loop iteration, a response whose status is neither 2xx nor
retryable raises a terminal HTTP error immediately on the current attempt —
no retry, no backoff sleep — since `raise_for_status` raises for every
non-2xx status and the raised `HTTPStatusError` is not a caught network
error. -/
theorem nonretryable_status_raises (s : Settings) (o : Nat → AttemptResult)
    (attempt fuel : Nat) (lastError : Option String) (delays : List ℚ)
    (r : HttpResponse) (ho : o attempt = .resp r)
    (hnr : is_retryable_status r.status = false)
    (h2 : ¬ (200 ≤ r.status ∧ r.status ≤ 299)) :
    retryGo s o attempt (fuel + 1) lastError delays =
      ⟨.httpError r.status, attempt + 1, delays⟩ := by
  have hraise : raise_for_status_raises r.status = true := by
    simp only [raise_for_status_raises, Bool.not_eq_eq_eq_not, Bool.not_true,
      Bool.and_eq_false_iff, decide_eq_false_iff_not]
    omega
  simp [retryGo, ho, hnr, hraise]

/-- C6 witness: a 302 redirect and a 404 each raise immediately on the
first attempt, with no retry and no delay. -/
theorem nonretryable_status_raises_witness :
    retryGo ⟨3, 1, 8⟩ (fun _ => .resp ⟨302, none⟩) 0 4 none [] =
      ⟨.httpError 302, 1, []⟩ ∧
    retryGo ⟨3, 1, 8⟩ (fun _ => .resp ⟨404, none⟩) 0 4 none [] =
      ⟨.httpError 404, 1, []⟩ :=
  ⟨nonretryable_status_raises ⟨3, 1, 8⟩ _ 0 3 none [] ⟨302, none⟩ rfl
      (by decide) (by decide),
   nonretryable_status_raises ⟨3, 1, 8⟩ _ 0 3 none [] ⟨404, none⟩ rfl
      (by decide) (by decide)⟩

/-- C4: `verify_webhook_signature` returns true exactly when the header is
the `"sha256="`-prefixed lower-case hex HMAC-SHA256 of the payload under the
configured secret; in particular every empty header and every header not
starting with the prefix is rejected, since the expected signature is
non-empty and starts with the prefix. -/
theorem verify_webhook_signature_iff (secret payload : List Nat)
    (signature : List Char) :
    verify_webhook_signature secret payload signature = true ↔
      signature = expected_signature secret payload := by
  unfold verify_webhook_signature
  by_cases h : signature.isEmpty || !(sha256HeaderPrefix.isPrefixOf signature)
  · rw [if_pos h]
    simp only [Bool.false_eq_true, false_iff]
    intro hsig
    subst hsig
    simp only [Bool.or_eq_true, List.isEmpty_iff, Bool.not_eq_true',
      Bool.not_eq_true, List.isPrefixOf_iff_prefix, expected_signature,
      decide_eq_false_iff_not] at h
    rcases h with h | h
    · exact absurd (List.append_eq_nil.mp h).1 (by decide)
    · have hp : sha256HeaderPrefix.isPrefixOf
          (sha256HeaderPrefix ++ hexDigest (hmacSha256 secret payload)) = true :=
        List.isPrefixOf_iff_prefix.mpr (List.prefix_append _ _)
      rw [h] at hp
      exact Bool.noConfusion hp
  · rw [if_neg h]
    rw [beq_iff_eq]
    exact eq_comm

/-- C9: the fall-through after the retry loop — `raise last_error` and the
`RuntimeError("Unexpected retry flow in GitHub client")` — is unreachable:
every call's outcome is produced inside the loop. -/
theorem request_with_retry_no_fallthrough (s : Settings) (o : Nat → AttemptResult) :
    (∀ e, (request_with_retry s o).outcome ≠ .fallbackRaise e) ∧
      (request_with_retry s o).outcome ≠ .unexpected :=
  retryGo_no_fallthrough s o (s.maxRetries + 1) 0 none [] (by omega) (by omega)

/-! ## Lemmas and claims about the workflow -/

/-- `String.append` concatenates the underlying character lists. -/
lemma string_data_append (s t : String) : (s ++ t).data = s.data ++ t.data := rfl

/-- Evaluation of a full run whose review reports no bugs: one review call,
the deterministic approved comment, one delivery attempt. -/
lemma run_graph_no_bugs (o : LLMOracle) (post : PostOracle) (init : GraphState)
    (r : ReviewResult) (hrev : o.review init.pr_diff = .ok r)
    (hb : r.has_bugs = false) :
    run_graph o post init =
      ([.llmReview init.pr_diff,
        .post init.repo_name init.pr_number (approved_comment r.summary)
          (post init.repo_name init.pr_number (approved_comment r.summary))],
       if post init.repo_name init.pr_number (approved_comment r.summary) then
         .ok { init with review_result := some r,
                         final_comment := some (approved_comment r.summary) }
       else .error "post_pr_comment failed") := by
  simp [run_graph, reviewer_agent, hrev, route_after_review, hb,
    committer_agent, deliver_comment]

/-- Evaluation of a full run whose review flags bugs and whose generation
calls succeed: review, patch and commit generation, one delivery attempt. -/
lemma run_graph_bugs (o : LLMOracle) (post : PostOracle) (init : GraphState)
    (r : ReviewResult) (pt ct : String)
    (hrev : o.review init.pr_diff = .ok r) (hb : r.has_bugs = true)
    (hp : o.patchGen init.pr_diff (model_dump_json r) = .ok pt)
    (hc : o.commitGen (model_dump_json r) (patch_code_or_placeholder (some pt)) = .ok ct) :
    run_graph o post init =
      ([.llmReview init.pr_diff, .llmPatch init.pr_diff (model_dump_json r),
        .llmCommit (model_dump_json r) (patch_code_or_placeholder (some pt)),
        .post init.repo_name init.pr_number ct (post init.repo_name init.pr_number ct)],
       if post init.repo_name init.pr_number ct then
         .ok { init with review_result := some r, patch_code := some pt,
                         final_comment := some ct }
       else .error "post_pr_comment failed") := by
  simp [run_graph, reviewer_agent, hrev, route_after_review, hb,
    patcher_agent, hp, committer_agent, hc, deliver_comment]

/-- `countPosts` distributes over trace concatenation. -/
lemma countPosts_append (a b : List Event) :
    countPosts (a ++ b) = countPosts a + countPosts b := by
  simp [countPosts]

/-- The reviewer node never posts a comment. -/
lemma countPosts_reviewer (o : LLMOracle) (st : GraphState) :
    countPosts (reviewer_agent o st).1 = 0 := by
  simp [reviewer_agent, countPosts, isPostEvent]

/-- The patcher node never posts a comment. -/
lemma countPosts_patcher (o : LLMOracle) (st : GraphState) :
    countPosts (patcher_agent o st).1 = 0 := by
  unfold patcher_agent
  cases st.review_result with
  | none => simp [countPosts]
  | some r =>
    by_cases hb : r.has_bugs
    · simp [hb, countPosts, isPostEvent]
    · simp [hb, countPosts]

/-- Delivery appends exactly one `post_pr_comment` call to a trace. -/
lemma countPosts_deliver (post : PostOracle) (st : GraphState) (evs : List Event)
    (f : String) : countPosts (deliver_comment post st evs f).1 = countPosts evs + 1 := by
  simp [deliver_comment, countPosts, List.countP_append, isPostEvent]

/-- The committer node performs at most one `post_pr_comment` call. -/
lemma countPosts_committer (o : LLMOracle) (post : PostOracle) (st : GraphState) :
    countPosts (committer_agent o post st).1 ≤ 1 := by
  unfold committer_agent
  cases hr : st.review_result with
  | none =>
    cases hg : o.commitGen "\x7b\x7d" (patch_code_or_placeholder st.patch_code) with
    | error e => simp [hg, countPosts, isPostEvent]
    | ok f =>
      simp only [hg]
      rw [countPosts_deliver]
      simp [countPosts, isPostEvent]
  | some r =>
    by_cases hb : r.has_bugs
    · simp only [hb, if_true]
      cases hg : o.commitGen (model_dump_json r) (patch_code_or_placeholder st.patch_code) with
      | error e => simp [hg, countPosts, isPostEvent]
      | ok f =>
        simp only [hg]
        rw [countPosts_deliver]
        simp [countPosts, isPostEvent]
    · have hb' : r.has_bugs = false := by simpa using hb
      simp only [hb', Bool.false_eq_true, if_false]
      rw [countPosts_deliver]
      simp [countPosts]

/-- Any run of the graph posts at most one comment, on every path. -/
theorem single_delivery_le (o : LLMOracle) (post : PostOracle) (init : GraphState) :
    countPosts (run_graph o post init).1 ≤ 1 := by
  simp only [run_graph]
  cases hres : (reviewer_agent o init).2 with
  | error e => simp [countPosts_reviewer]
  | ok st1 =>
    by_cases hroute : route_after_review st1 = "patcher"
    · simp only [hroute, if_true]
      cases hp : (patcher_agent o st1).2 with
      | error e => simp [countPosts_append, countPosts_reviewer, countPosts_patcher]
      | ok st2 =>
        simp only [countPosts_append, countPosts_reviewer, countPosts_patcher]
        simpa using countPosts_committer o post st2
    · simp only [hroute, if_false]
      simp only [countPosts_append, countPosts_reviewer]
      simpa using countPosts_committer o post st1

/-- C1: after the review stage completes, the run goes to `patcher` exactly
when `has_bugs` is true. With `has_bugs = false` the trace is review followed
by the single delivery — the patch stage is never invoked and the
text-generation capability is called exactly once. With `has_bugs = true`
the patch stage is invoked exactly once and the commit stage runs with the
serialized review result and the patch text both available (they are the
arguments of its generation call, and both survive into any returned
state). -/
theorem routing_after_review (o : LLMOracle) (post : PostOracle)
    (repo : String) (pr : Nat) (diff : String) (r : ReviewResult)
    (hrev : o.review diff = .ok r) :
    (r.has_bugs = false →
      (run_pr_review o post repo pr diff).1 =
        [.llmReview diff,
         .post repo pr (approved_comment r.summary)
           (post repo pr (approved_comment r.summary))] ∧
      countLLM (run_pr_review o post repo pr diff).1 = 1 ∧
      countPatchCalls (run_pr_review o post repo pr diff).1 = 0) ∧
    (r.has_bugs = true → ∀ pt ct,
      o.patchGen diff (model_dump_json r) = .ok pt →
      o.commitGen (model_dump_json r) (patch_code_or_placeholder (some pt)) = .ok ct →
      (run_pr_review o post repo pr diff).1 =
        [.llmReview diff, .llmPatch diff (model_dump_json r),
         .llmCommit (model_dump_json r) (patch_code_or_placeholder (some pt)),
         .post repo pr ct (post repo pr ct)] ∧
      countPatchCalls (run_pr_review o post repo pr diff).1 = 1 ∧
      ∀ st, (run_pr_review o post repo pr diff).2 = .ok st →
        st.review_result = some r ∧ st.patch_code = some pt) := by
  constructor
  · intro hb
    have h := run_graph_no_bugs o post (initial_state repo pr diff) r hrev hb
    unfold run_pr_review
    rw [h]
    refine ⟨rfl, ?_, ?_⟩ <;>
      simp [countLLM, countPatchCalls, isLLMEvent, isPatchEvent]
  · intro hb pt ct hp hc
    have h := run_graph_bugs o post (initial_state repo pr diff) r pt ct hrev hb hp hc
    unfold run_pr_review
    rw [h]
    refine ⟨rfl, ?_, ?_⟩
    · simp [countPatchCalls, isPatchEvent]
    · intro st hst
      by_cases hpost : post repo pr ct
      · simp only [initial_state] at hst
        rw [if_pos hpost] at hst
        simp only [Except.ok.injEq] at hst
        subst hst
        exact ⟨rfl, rfl⟩
      · simp only [initial_state] at hst
        rw [if_neg hpost] at hst
        exact absurd hst (by simp)

/-- C7: when the review reports no bugs, the commit stage synthesizes the
final comment deterministically from `review_result.summary` — the only
text-generation call of the run is the review itself — and the comment
contains both `"LGTM"` and the summary text. -/
theorem cheap_path_comment (o : LLMOracle) (post : PostOracle)
    (repo : String) (pr : Nat) (diff : String) (r : ReviewResult)
    (hrev : o.review diff = .ok r) (hb : r.has_bugs = false)
    (hpost : post repo pr (approved_comment r.summary) = true) :
    (run_pr_review o post repo pr diff).2 =
      .ok ⟨repo, pr, diff, some r, none, some (approved_comment r.summary)⟩ ∧
    countLLM (run_pr_review o post repo pr diff).1 = 1 ∧
    "LGTM".data <:+: (approved_comment r.summary).data ∧
    r.summary.data <:+: (approved_comment r.summary).data := by
  have h := run_graph_no_bugs o post (initial_state repo pr diff) r hrev hb
  have hdata : (approved_comment r.summary).data =
      ("## PR Review Result\n\nLGTM âœ…\n\n" : String).data ++
        (r.summary.data ++ ("\n\nNo blocking issues found." : String).data) := by
    simp [approved_comment, string_data_append, List.append_assoc]
  refine ⟨?_, ?_, ?_, ?_⟩
  · unfold run_pr_review
    rw [h]
    simp [initial_state, hpost]
  · unfold run_pr_review
    rw [h]
    simp [countLLM, isLLMEvent]
  · rw [hdata]
    have h1 : "LGTM".data <:+: ("## PR Review Result\n\nLGTM âœ…\n\n" : String).data := by
      decide
    exact h1.trans (List.prefix_append _ _).isInfix
  · rw [hdata]
    exact ⟨("## PR Review Result\n\nLGTM âœ…\n\n" : String).data,
      ("\n\nNo blocking issues found." : String).data, List.append_assoc _ _ _⟩

/-- C8: a review result with `has_bugs = true` and an empty issues list is
handled without crashing: the patch stage still produces patch guidance, the
commit stage still generates the final comment, and exactly one comment is
delivered. -/
theorem empty_issues_no_crash (o : LLMOracle) (post : PostOracle)
    (repo : String) (pr : Nat) (diff : String) (r : ReviewResult) (pt ct : String)
    (hrev : o.review diff = .ok r) (hb : r.has_bugs = true) (_hiss : r.issues = [])
    (hp : o.patchGen diff (model_dump_json r) = .ok pt)
    (hc : o.commitGen (model_dump_json r) (patch_code_or_placeholder (some pt)) = .ok ct)
    (hpost : post repo pr ct = true) :
    (run_pr_review o post repo pr diff).2 =
      .ok ⟨repo, pr, diff, some r, some pt, some ct⟩ ∧
    countPosts (run_pr_review o post repo pr diff).1 = 1 := by
  have h := run_graph_bugs o post (initial_state repo pr diff) r pt ct hrev hb hp hc
  constructor
  · unfold run_pr_review
    rw [h]
    simp [initial_state, hpost]
  · unfold run_pr_review
    rw [h]
    simp [countPosts, isPostEvent]

/-- A successful reviewer node preserves the repository and PR number. -/
lemma reviewer_ok_shape (o : LLMOracle) (st st' : GraphState)
    (h : (reviewer_agent o st).2 = .ok st') :
    st'.repo_name = st.repo_name ∧ st'.pr_number = st.pr_number := by
  unfold reviewer_agent at h
  cases hrev : o.review st.pr_diff with
  | error e => rw [hrev] at h; exact absurd h (by simp)
  | ok r =>
    rw [hrev] at h
    simp only [Except.ok.injEq] at h
    subst h
    exact ⟨rfl, rfl⟩

/-- A successful patcher node preserves the repository and PR number. -/
lemma patcher_ok_shape (o : LLMOracle) (st st' : GraphState)
    (h : (patcher_agent o st).2 = .ok st') :
    st'.repo_name = st.repo_name ∧ st'.pr_number = st.pr_number := by
  unfold patcher_agent at h
  cases hr : st.review_result with
  | none =>
    rw [hr] at h
    simp only [Except.ok.injEq] at h
    subst h
    exact ⟨rfl, rfl⟩
  | some r =>
    rw [hr] at h
    by_cases hb : r.has_bugs
    · simp only [hb, if_true] at h
      cases hp : o.patchGen st.pr_diff (model_dump_json r) with
      | error e => rw [hp] at h; exact absurd h (by simp)
      | ok p =>
        rw [hp] at h
        simp only [Except.ok.injEq] at h
        subst h
        exact ⟨rfl, rfl⟩
    · have hb' : r.has_bugs = false := by simpa using hb
      simp only [hb', Bool.false_eq_true, if_false] at h
      simp only [Except.ok.injEq] at h
      subst h
      exact ⟨rfl, rfl⟩

/-- A committer node that returns a state has delivered: the returned state
records a final comment whose successful `post_pr_comment` call is in the
node trace, and the node posted exactly once. -/
lemma committer_ok_delivery (o : LLMOracle) (post : PostOracle) (st st' : GraphState)
    (h : (committer_agent o post st).2 = .ok st') :
    ∃ c, st'.final_comment = some c ∧
      Event.post st.repo_name st.pr_number c true ∈ (committer_agent o post st).1 ∧
      countPosts (committer_agent o post st).1 = 1 := by
  unfold committer_agent at h ⊢
  cases hr : st.review_result with
  | none =>
    rw [hr] at h
    dsimp only at h ⊢
    cases hg : o.commitGen "\x7b\x7d" (patch_code_or_placeholder st.patch_code) with
    | error e => rw [hg] at h; exact absurd h (by simp)
    | ok f =>
      rw [hg] at h
      simp only [deliver_comment] at h ⊢
      cases hpost : post st.repo_name st.pr_number f with
      | false => rw [hpost] at h; exact absurd h (by simp)
      | true =>
        rw [hpost] at h
        simp only [if_true, Except.ok.injEq] at h
        subst h
        exact ⟨f, rfl, by simp, by simp [countPosts, isPostEvent]⟩
  | some r =>
    rw [hr] at h
    by_cases hb : r.has_bugs
    · simp only [hb, if_true] at h ⊢
      cases hg : o.commitGen (model_dump_json r) (patch_code_or_placeholder st.patch_code) with
      | error e => rw [hg] at h; exact absurd h (by simp)
      | ok f =>
        rw [hg] at h
        simp only [deliver_comment] at h ⊢
        cases hpost : post st.repo_name st.pr_number f with
        | false => rw [hpost] at h; exact absurd h (by simp)
        | true =>
          rw [hpost] at h
          simp only [if_true, Except.ok.injEq] at h
          subst h
          exact ⟨f, rfl, by simp, by simp [countPosts, isPostEvent]⟩
    · have hb' : r.has_bugs = false := by simpa using hb
      simp only [hb', Bool.false_eq_true, if_false] at h ⊢
      simp only [deliver_comment] at h ⊢
      cases hpost : post st.repo_name st.pr_number (approved_comment r.summary) with
      | false => rw [hpost] at h; exact absurd h (by simp)
      | true =>
        rw [hpost] at h
        simp only [if_true, Except.ok.injEq] at h
        subst h
        exact ⟨approved_comment r.summary, rfl, by simp [hr],
          by simp [hr, countPosts, isPostEvent]⟩

/-- C10: a run only returns a state when the final comment was delivered —
the returned state's `final_comment` is exactly the body of a successful
`post_pr_comment` call in the run's trace, so no run ever records a final
comment that was not delivered; when delivery fails the committer aborts and
no state is returned. -/
theorem final_comment_only_if_delivered (o : LLMOracle) (post : PostOracle)
    (init st : GraphState) (h : (run_graph o post init).2 = .ok st) :
    ∃ c, st.final_comment = some c ∧
      Event.post init.repo_name init.pr_number c true ∈ (run_graph o post init).1 := by
  simp only [run_graph] at h ⊢
  cases hres : (reviewer_agent o init).2 with
  | error e => rw [hres] at h; exact absurd h (by simp)
  | ok st1 =>
    rw [hres] at h
    obtain ⟨hrepo1, hpr1⟩ := reviewer_ok_shape o init st1 hres
    by_cases hroute : route_after_review st1 = "patcher"
    · simp only [hroute, if_true] at h ⊢
      cases hp : (patcher_agent o st1).2 with
      | error e => rw [hp] at h; exact absurd h (by simp)
      | ok st2 =>
        rw [hp] at h
        obtain ⟨hrepo2, hpr2⟩ := patcher_ok_shape o st1 st2 hp
        obtain ⟨c, hfc, hmem, hcount⟩ := committer_ok_delivery o post st2 st h
        rw [hrepo2, hrepo1, hpr2, hpr1] at hmem
        exact ⟨c, hfc, List.mem_append_right _ hmem⟩
    · simp only [hroute, if_false] at h ⊢
      obtain ⟨c, hfc, hmem, hcount⟩ := committer_ok_delivery o post st1 st h
      rw [hrepo1, hpr1] at hmem
      exact ⟨c, hfc, List.mem_append_right _ hmem⟩

/-- C3: for every terminal run, `post_pr_comment` is invoked at most once:
the commit stage is the only node that posts — the reviewer and the patcher
never do — and a run that terminates successfully has posted exactly one
comment. -/
theorem single_delivery (o : LLMOracle) (post : PostOracle) (init : GraphState) :
    countPosts (run_graph o post init).1 ≤ 1 ∧
    countPosts (reviewer_agent o init).1 = 0 ∧
    countPosts (patcher_agent o init).1 = 0 ∧
    ∀ st, (run_graph o post init).2 = .ok st →
      countPosts (run_graph o post init).1 = 1 := by
  refine ⟨single_delivery_le o post init, countPosts_reviewer o init,
    countPosts_patcher o init, ?_⟩
  intro st h
  simp only [run_graph] at h ⊢
  cases hres : (reviewer_agent o init).2 with
  | error e => rw [hres] at h; exact absurd h (by simp)
  | ok st1 =>
    rw [hres] at h
    by_cases hroute : route_after_review st1 = "patcher"
    · simp only [hroute, if_true] at h ⊢
      cases hp : (patcher_agent o st1).2 with
      | error e => rw [hp] at h; exact absurd h (by simp)
      | ok st2 =>
        rw [hp] at h
        obtain ⟨c, hfc, hmem, hcount⟩ := committer_ok_delivery o post st2 st h
        simp [countPosts_append, countPosts_reviewer, countPosts_patcher, hcount]
    · simp only [hroute, if_false] at h ⊢
      obtain ⟨c, hfc, hmem, hcount⟩ := committer_ok_delivery o post st1 st h
      simp [countPosts_append, countPosts_reviewer, hcount]

/-- C3 witness: a concrete successful no-bugs run posts exactly one
comment. -/
theorem single_delivery_witness :
    countPosts (run_graph demoOracleOk postAlways (initial_state "octo/repo" 7 "diff")).1 = 1 :=
  (single_delivery demoOracleOk postAlways (initial_state "octo/repo" 7 "diff")).2.2.2
    ⟨"octo/repo", 7, "diff", some demoReviewOk, none, some (approved_comment "No issues")⟩ rfl

/-- C1 witness: a concrete buggy-review run performs exactly one patch
call and hands review and patch text to the commit stage. -/
theorem routing_after_review_witness :
    (run_pr_review demoOracleBad postAlways "octo/repo" 7 "diff").1 =
      [.llmReview "diff", .llmPatch "diff" (model_dump_json demoReviewBad),
       .llmCommit (model_dump_json demoReviewBad) (patch_code_or_placeholder (some "patch")),
       .post "octo/repo" 7 "final" (postAlways "octo/repo" 7 "final")] ∧
    countPatchCalls (run_pr_review demoOracleBad postAlways "octo/repo" 7 "diff").1 = 1 ∧
    ∀ st, (run_pr_review demoOracleBad postAlways "octo/repo" 7 "diff").2 = .ok st →
      st.review_result = some demoReviewBad ∧ st.patch_code = some "patch" :=
  (routing_after_review demoOracleBad postAlways "octo/repo" 7 "diff" demoReviewBad rfl).2
    rfl "patch" "final" rfl rfl

/-- C7 witness (Scenario A): with summary `"No issues"` the posted comment
contains `"LGTM"` and `"No issues"`, after a single generation call. -/
theorem cheap_path_comment_witness :
    (run_pr_review demoOracleOk postAlways "octo/repo" 7 "diff").2 =
      .ok ⟨"octo/repo", 7, "diff", some demoReviewOk, none,
        some (approved_comment "No issues")⟩ ∧
    countLLM (run_pr_review demoOracleOk postAlways "octo/repo" 7 "diff").1 = 1 ∧
    "LGTM".data <:+: (approved_comment "No issues").data ∧
    "No issues".data <:+: (approved_comment "No issues").data :=
  cheap_path_comment demoOracleOk postAlways "octo/repo" 7 "diff" demoReviewOk rfl rfl rfl

/-- C8 witness: a concrete run with `has_bugs = true` and no issues
completes and posts exactly one comment. -/
theorem empty_issues_no_crash_witness :
    (run_pr_review demoOracleBad postAlways "octo/repo" 7 "diff").2 =
      .ok ⟨"octo/repo", 7, "diff", some demoReviewBad, some "patch", some "final"⟩ ∧
    countPosts (run_pr_review demoOracleBad postAlways "octo/repo" 7 "diff").1 = 1 :=
  empty_issues_no_crash demoOracleBad postAlways "octo/repo" 7 "diff" demoReviewBad
    "patch" "final" rfl rfl rfl rfl rfl rfl

/-- C10 witness: the returned state of a concrete successful run records
the delivered approved comment. -/
theorem final_comment_only_if_delivered_witness :
    ∃ c, (⟨"octo/repo", 7, "diff", some demoReviewOk, none,
        some (approved_comment "No issues")⟩ : GraphState).final_comment = some c ∧
      Event.post (initial_state "octo/repo" 7 "diff").repo_name
          (initial_state "octo/repo" 7 "diff").pr_number c true ∈
        (run_graph demoOracleOk postAlways (initial_state "octo/repo" 7 "diff")).1 :=
  final_comment_only_if_delivered demoOracleOk postAlways (initial_state "octo/repo" 7 "diff")
    ⟨"octo/repo", 7, "diff", some demoReviewOk, none, some (approved_comment "No issues")⟩ rfl

end CICD
